import Mathlib

/-!
Verification of the odemis composite-actuator layer
(`src/odemis/driver/actuator.py`) against its natural-language design
specification.  Each Python function relevant to the checked claims is
shallowly embedded as an executable Lean definition over exact arithmetic
(`ℚ` or `ℝ`); machine floats are modelled by real/rational numbers.
-/

/-- Python float modulo: `x % c = x - c * floor (x / c)`.  For `c > 0` the
result lies in `[0, c)`.  Used by `RotationActuator._findShortestMove`,
`FixedPositionsActuator._doMoveAbs` and
`CombinedFixedPositionActuator._readPositionfromDependencies`. -/
def qmod {K : Type} [LinearOrderedField K] [FloorRing K] (x c : K) : K :=
  x - c * (⌊x / c⌋ : ℤ)

/-! ## AntiBacklashActuator -/

/-- Embeds the per-axis range check of `AntiBacklashActuator.__init__`
(actuator.py lines 758-767): for an axis with range `(lo, hi)` and a
configured backlash `b`, construction raises `ValueError` when
`hi - lo < |b|`; otherwise the axis range is restricted by the backlash
amount on the side of its direction. -/
def antiBacklashAxisRange (b lo hi : ℚ) : Except String (ℚ × ℚ) :=
  if hi - lo < |b| then
    Except.error "Backlash is bigger than range"
  else
    if 0 < b then Except.ok (lo + b, hi) else Except.ok (lo, hi + b)

/-- Embeds the body of the per-axis loop of
`AntiBacklashActuator._doMoveRel` (lines 821-837) for one axis: given the
configured backlash of the axis (`none` when the axis has no backlash
entry), the requested shift `v` and the current `_shifted` flag, returns
the shift actually sent to the dependency and the new `_shifted` flag. -/
def subShiftAxis (backlash : Option ℚ) (v : ℚ) (shifted : Bool) : ℚ × Bool :=
  match backlash with
  | none => (v, shifted)
  | some b =>
    if 0 ≤ v * b then (v, shifted)
    else if shifted then (v, shifted)
    else (v - b, true)

/-- Embeds `AntiBacklashActuator._antiBacklashMove` (lines 802-817) for one
axis: when the axis is currently shifted, a compensating relative move of
exactly the backlash amount is issued (when the axis has a backlash entry)
and the flag is cleared; otherwise no move is issued. -/
def antiBacklashMoveAxis (backlash : Option ℚ) (shifted : Bool) :
    Option ℚ × Bool :=
  if shifted then
    (match backlash with
     | some b => some b
     | none => none, false)
  else (none, shifted)

/-- One full `_doMoveRel` execution for a single axis (main move planning
followed by the trailing `_antiBacklashMove` on the same axis, lines
819-863, without the update-move early return): returns the dependency
move, the optional compensating move, and the final `_shifted` flag. -/
def doMoveRelAxis (backlash : Option ℚ) (v : ℚ) (shifted : Bool) :
    ℚ × Option ℚ × Bool :=
  let s1 := subShiftAxis backlash v shifted
  let s2 := antiBacklashMoveAxis backlash s1.2
  (s1.1, s2.1, s2.2)

/-! ## RotationActuator -/

/-- Embeds `RotationActuator._findShortestMove` (lines 2122-2134): computes
the two modulo distances of `target_pos - cur_pos` and returns the signed
move along the shorter direction. -/
def findShortestMove {K : Type} [LinearOrderedField K] [FloorRing K]
    (cycle cur_pos target_pos : K) : K :=
  let vector := target_pos - cur_pos
  let mod1 := qmod vector cycle
  let mod2 := qmod (-vector) cycle
  if mod1 < mod2 then mod1 else -mod2

/-! ## ConvertStage -/

/-- Transform metadata of a `ConvertStage`: rotation (radians), per-axis
scale `(scaleX, scaleY)` and translation `(transX, transY)`, as stored in
`MD_ROTATION_COR`, `MD_PIXEL_SIZE_COR` and `MD_POS_COR`. -/
structure ConvertParams where
  rotation : ℝ
  scaleX : ℝ
  scaleY : ℝ
  transX : ℝ
  transY : ℝ

/-- Matrix product with `self._Mtodep` from
`ConvertStage._updateConversion` (lines 643-645):
`[[cos r * sx, -sin r * sx], [sin r * sy, cos r * sy]]`. -/
noncomputable def mtodepDot (cp : ConvertParams) (v : ℝ × ℝ) : ℝ × ℝ :=
  (Real.cos cp.rotation * cp.scaleX * v.1 +
     (-Real.sin cp.rotation * cp.scaleX) * v.2,
   Real.sin cp.rotation * cp.scaleY * v.1 +
     Real.cos cp.rotation * cp.scaleY * v.2)

/-- Matrix product with `self._Mfromdep` from
`ConvertStage._updateConversion` (lines 647-649):
`[[cos (-r) / sx, -sin (-r) / sy], [sin (-r) / sx, cos (-r) / sy]]`. -/
noncomputable def mfromdepDot (cp : ConvertParams) (v : ℝ × ℝ) : ℝ × ℝ :=
  (Real.cos (-cp.rotation) / cp.scaleX * v.1 +
     (-Real.sin (-cp.rotation) / cp.scaleY) * v.2,
   Real.sin (-cp.rotation) / cp.scaleX * v.1 +
     Real.cos (-cp.rotation) / cp.scaleY * v.2)

/-- Embeds `ConvertStage._convertPosFromdep` (lines 654-661): apply
`_Mfromdep`, then subtract the translation offset `_O` when `absolute`. -/
noncomputable def convertPosFromdep (cp : ConvertParams) (pos_dep : ℝ × ℝ)
    (absolute : Bool) : ℝ × ℝ :=
  let p := mfromdepDot cp pos_dep
  if absolute then (p.1 - cp.transX, p.2 - cp.transY) else p

/-- Embeds `ConvertStage._convertPosTodep` (lines 663-670): add the
translation offset `_O` when `absolute`, then apply `_Mtodep`. -/
noncomputable def convertPosTodep (cp : ConvertParams) (pos : ℝ × ℝ)
    (absolute : Bool) : ℝ × ℝ :=
  let p := if absolute then (pos.1 + cp.transX, pos.2 + cp.transY) else pos
  mtodepDot cp p

/-! ## CoupledStage -/

/-- Hardware calls issued by a `CoupledStage` task body, in order. -/
inductive HwCall
  | masterMoveAbs (pos : ℚ × ℚ)
  | masterMoveRel (shift : ℚ × ℚ)
  | slaveConvMoveAbs (pos : ℚ × ℚ)
deriving DecidableEq

/-- Outcome of the master dependency move: the result of `f.result()` and
the master's actual reported position afterwards (`_master.position.value`,
read whether or not the move raised). -/
structure MasterOutcome where
  result : Except String Unit
  finalPos : ℚ × ℚ

/-- Python `try body finally fin` result semantics: the `finally` block
always runs; an exception escaping it replaces the body's outcome,
otherwise the body's outcome (value or exception) stands. -/
def tryFinallyExc {α : Type} (body : Except String α)
    (fin : Except String Unit) : Except String α :=
  match fin with
  | Except.error e => Except.error e
  | Except.ok _ => body

/-- Embeds `CoupledStage._doMoveAbs` (lines 498-513): issue the master
absolute move, and in a `finally` block read the master's actual position
and issue the converted absolute slave move through the `ConvertStage`;
the slave synchronization call is recorded on both the success and the
failure path of the master move. `slaveResult` is the outcome of the slave
synchronization move. -/
def coupledDoMoveAbs (pos : ℚ × ℚ) (m : MasterOutcome)
    (slaveResult : Except String Unit) :
    Except String Unit × List HwCall :=
  let calls1 := [HwCall.masterMoveAbs pos]
  let mpos := m.finalPos
  let calls2 := calls1 ++ [HwCall.slaveConvMoveAbs mpos]
  (tryFinallyExc m.result slaveResult, calls2)

/-- Embeds `CoupledStage._doMoveRel` (lines 515-528), same structure as
`coupledDoMoveAbs` but with a master relative move. -/
def coupledDoMoveRel (shift : ℚ × ℚ) (m : MasterOutcome)
    (slaveResult : Except String Unit) :
    Except String Unit × List HwCall :=
  let calls1 := [HwCall.masterMoveRel shift]
  let mpos := m.finalPos
  let calls2 := calls1 ++ [HwCall.slaveConvMoveAbs mpos]
  (tryFinallyExc m.result slaveResult, calls2)

/-! ## CombinedSensorActuator -/

/-- Termination mode of the correction loop in
`CombinedSensorActuator._doMoveAbs`. -/
inductive CsOutcome
  | success
  | ioError
  | giveUp
deriving DecidableEq

/-- Embeds the `while spos != exp_spos` correction loop of
`CombinedSensorActuator._doMoveAbs` (lines 1508-1534).  `sensor j` is the
sensor reading observed after `j` corrective relative moves; `fuel`
counts the remaining loop turns before the retry counter reaches 10
(entered with `fuel = 9`, since `retry == 10` raises `IOError`); `k` is
the number of corrective moves issued so far, each of size
`(p_cor - prev_pos) * 1/10`, accumulated in `tot`.  Dependency moves are
modelled as succeeding.  Returns the outcome, the number of corrective
moves issued and the accumulated `tot_shift`. -/
def csLoop (p_cor prev_pos exp_spos : ℚ) (sensor : ℕ → ℚ) :
    ℕ → ℕ → ℚ → CsOutcome × ℕ × ℚ
  | 0, k, tot =>
    if sensor k = exp_spos then (CsOutcome.success, k, tot)
    else (CsOutcome.ioError, k, tot)
  | fuel + 1, k, tot =>
    if sensor k = exp_spos then (CsOutcome.success, k, tot)
    else if p_cor = prev_pos then (CsOutcome.giveUp, k, tot)
    else
      csLoop p_cor prev_pos exp_spos sensor fuel (k + 1)
        (tot + (p_cor - prev_pos) * (1 / 10))

/-- Embeds `CombinedSensorActuator._doMoveAbs` (lines 1495-1537) for the
single axis: the corrected target is `p_cor = p + _pos_shift`; on success
the accumulated extra shift is added to the persistent `_pos_shift`
(`self._pos_shift += tot_shift`), while on `IOError` or give-up the stored
`_pos_shift` is left unchanged.  Returns the outcome, the number of
corrective moves issued, and the new `_pos_shift`. -/
def csDoMoveAbs (p pos_shift prev_pos exp_spos : ℚ) (sensor : ℕ → ℚ) :
    CsOutcome × ℕ × ℚ :=
  let p_cor := p + pos_shift
  let r := csLoop p_cor prev_pos exp_spos sensor 9 0 0
  match r.1 with
  | CsOutcome.success => (r.1, r.2.1, pos_shift + r.2.2)
  | CsOutcome.ioError => (r.1, r.2.1, pos_shift)
  | CsOutcome.giveUp => (r.1, r.2.1, pos_shift)

/-! ## CombinedFixedPositionActuator -/

/-- Per-axis distance between the current dependency position `cp` and a
table entry `tp`, from `_readPositionfromDependencies` (lines 1698-1701):
plain absolute difference without a cycle, modulo-aware minimum distance
with one. -/
def distAxis : Option ℚ → ℚ → ℚ → ℚ
  | none, cp, tp => |cp - tp|
  | some cyl, cp, tp => min (qmod (cp - tp) cyl) (qmod (tp - cp) cyl)

/-- Whether a position-table entry matches the current pair of dependency
positions: the inner `for`/`break` loop of `_readPositionfromDependencies`
(lines 1695-1705) succeeds iff no axis has distance above its tolerance. -/
def entryMatches (cur atol : ℚ × ℚ) (cyc : Option ℚ × Option ℚ)
    (tp : ℚ × ℚ) : Bool :=
  decide (distAxis cyc.1 cur.1 tp.1 ≤ atol.1) &&
    decide (distAxis cyc.2 cur.2 tp.2 ≤ atol.2)

/-- Embeds `CombinedFixedPositionActuator._readPositionfromDependencies`
(lines 1684-1707): the first table entry whose pair is within per-axis
tolerance wins; `none` models the `LookupError` raised when no entry
matches.  The list order models the (insertion-ordered) iteration over
`self._positions.items()`. -/
def readPositionfromDependencies (positions : List (String × ℚ × ℚ))
    (cur atol : ℚ × ℚ) (cyc : Option ℚ × Option ℚ) : Option String :=
  (positions.find? (fun e => entryMatches cur atol cyc e.2)).map Prod.fst

/-- Embeds `CombinedFixedPositionActuator._updatePosition` (lines
1709-1725): report the matching table key, or the configured fallback
label when `_readPositionfromDependencies` raises `LookupError`. -/
def combinedUpdatePosition (positions : List (String × ℚ × ℚ))
    (cur atol : ℚ × ℚ) (cyc : Option ℚ × Option ℚ)
    (fallback : String) : String :=
  (readPositionfromDependencies positions cur atol cyc).getD fallback

/-! ## stop translation of the exposed axis -/

/-- Embeds the axes-argument translation of `FixedPositionsActuator.stop`
(lines 1326-1336) exactly as written: when `axes` is not `None` it is
first reassigned to a fresh empty set, then `self._axis` is looked up in
that (necessarily empty) set before conditionally adding `self._caxis`.
Returns the `axes` value passed on to `self._dependency.stop`. -/
def fixedPositionsStopDepAxes (axis caxis : String)
    (axes : Option (List String)) : Option (List String) :=
  match axes with
  | none => none
  | some _ =>
    let axes2 : List String := []
    some (if axis ∈ axes2 then axes2 ++ [caxis] else axes2)

/-- Whether the body of `FixedPositionsActuator.stop` cancels the pending
executor queue: the method (lines 1326-1336) contains no
`self._executor.cancel()` call. -/
def fixedPositionsStopCancelsQueue : Bool := false

/-- Embeds the axes-argument translation of `RotationActuator.stop` (lines
2158-2172), which shares the same reassignment of `axes` to an empty set
before the membership test. -/
def rotationStopDepAxes (axis caxis : String)
    (axes : Option (List String)) : Option (List String) :=
  match axes with
  | none => none
  | some _ =>
    let axes2 : List String := []
    some (if axis ∈ axes2 then axes2 ++ [caxis] else axes2)

/-- Whether the body of `RotationActuator.stop` cancels the pending
executor queue: it starts with `self._executor.cancel()` (line 2165). -/
def rotationStopCancelsQueue : Bool := true

/-! ## moveRel / moveAbs entry points -/

/-- Synchronous outcome of a public `moveRel` / `moveAbs` call: an
already-resolved `InstantaneousFuture` (nothing queued, no dependency
call), a task submitted to the executor (or forwarded to the dependency),
or a synchronous exception raised before anything is queued. -/
inductive MoveEntry
  | instantFuture
  | submitted
  | errNotImplemented
  | errBadAxis
  | errValue
deriving DecidableEq

/-- Modelled from the spec: `model.Actuator._checkMoveRel` /
`_checkMoveAbs` are defined in `odemis.model`, which is not under `src/`;
per the spec, a move naming an axis the instance does not own raises an
unknown-target error synchronously.  Modelled as requiring every named
axis to be owned. -/
def checkMoveAxes {V : Type} (ownAxes : List String)
    (move : List (String × V)) : Bool :=
  move.all (fun p => ownAxes.contains p.1)

/-- Embeds `MultiplexActuator.moveRel` (lines 250-271): an empty shift
returns an `InstantaneousFuture`; otherwise the move is validated and
submitted (or forwarded directly when there is a single dependency). -/
def multiplexMoveRel (ownAxes : List String)
    (shift : List (String × ℚ)) : MoveEntry :=
  if shift.isEmpty then MoveEntry.instantFuture
  else if checkMoveAxes ownAxes shift then MoveEntry.submitted
  else MoveEntry.errBadAxis

/-- Embeds `MultiplexActuator.moveAbs` (lines 287-302), same shape as
`multiplexMoveRel`. -/
def multiplexMoveAbs (ownAxes : List String)
    (pos : List (String × ℚ)) : MoveEntry :=
  if pos.isEmpty then MoveEntry.instantFuture
  else if checkMoveAxes ownAxes pos then MoveEntry.submitted
  else MoveEntry.errBadAxis

/-- Embeds `AntiBacklashActuator.moveRel` (lines 924-931). -/
def antiBacklashMoveRelCall (ownAxes : List String)
    (shift : List (String × ℚ)) : MoveEntry :=
  if shift.isEmpty then MoveEntry.instantFuture
  else if checkMoveAxes ownAxes shift then MoveEntry.submitted
  else MoveEntry.errBadAxis

/-- Embeds `AntiBacklashActuator.moveAbs` (lines 933-940). -/
def antiBacklashMoveAbsCall (ownAxes : List String)
    (pos : List (String × ℚ)) : MoveEntry :=
  if pos.isEmpty then MoveEntry.instantFuture
  else if checkMoveAxes ownAxes pos then MoveEntry.submitted
  else MoveEntry.errBadAxis

/-- Embeds `LinearActuator.moveRel` (lines 1038-1049). -/
def linearMoveRelCall (ownAxes : List String)
    (shift : List (String × ℚ)) : MoveEntry :=
  if shift.isEmpty then MoveEntry.instantFuture
  else if checkMoveAxes ownAxes shift then MoveEntry.submitted
  else MoveEntry.errBadAxis

/-- Embeds `LinearActuator.moveAbs` (lines 1051-1064). -/
def linearMoveAbsCall (ownAxes : List String)
    (pos : List (String × ℚ)) : MoveEntry :=
  if pos.isEmpty then MoveEntry.instantFuture
  else if checkMoveAxes ownAxes pos then MoveEntry.submitted
  else MoveEntry.errBadAxis

/-- Embeds `FixedPositionsActuator.moveRel` (lines 1243-1248): an empty
shift returns an `InstantaneousFuture`; a validated non-empty shift raises
`NotImplementedError` before any task is queued and without any
dependency call. -/
def fixedPositionsMoveRel (ownAxes : List String)
    (shift : List (String × ℚ)) : MoveEntry :=
  if shift.isEmpty then MoveEntry.instantFuture
  else if checkMoveAxes ownAxes shift then MoveEntry.errNotImplemented
  else MoveEntry.errBadAxis

/-- Embeds `FixedPositionsActuator.moveAbs` (lines 1250-1262). -/
def fixedPositionsMoveAbs (ownAxes : List String)
    (pos : List (String × ℚ)) : MoveEntry :=
  if pos.isEmpty then MoveEntry.instantFuture
  else if checkMoveAxes ownAxes pos then MoveEntry.submitted
  else MoveEntry.errBadAxis

/-- Embeds `CombinedSensorActuator.moveRel` (lines 1474-1479). -/
def combinedSensorMoveRel (ownAxes : List String)
    (shift : List (String × ℚ)) : MoveEntry :=
  if shift.isEmpty then MoveEntry.instantFuture
  else if checkMoveAxes ownAxes shift then MoveEntry.errNotImplemented
  else MoveEntry.errBadAxis

/-- Embeds `CombinedSensorActuator.moveAbs` (lines 1481-1493). -/
def combinedSensorMoveAbs (ownAxes : List String)
    (pos : List (String × ℚ)) : MoveEntry :=
  if pos.isEmpty then MoveEntry.instantFuture
  else if checkMoveAxes ownAxes pos then MoveEntry.submitted
  else MoveEntry.errBadAxis

/-- Embeds `CombinedFixedPositionActuator.moveRel` (lines 1738-1742): an
empty shift returns an `InstantaneousFuture`; any non-empty shift raises
`NotImplementedError` immediately (there is no axis validation call). -/
def combinedFixedPositionsMoveRel (shift : List (String × ℚ)) : MoveEntry :=
  if shift.isEmpty then MoveEntry.instantFuture
  else MoveEntry.errNotImplemented

/-- Embeds `CombinedFixedPositionActuator.moveAbs` (lines 1744-1762): an
empty mapping returns an `InstantaneousFuture`; otherwise the axes are
validated, requesting the fallback label raises `ValueError`, and any
other request is submitted to the executor.  Position values are the
string labels of the position table. -/
def combinedFixedPositionsMoveAbs (ownAxes : List String)
    (fallback : String) (pos : List (String × String)) : MoveEntry :=
  if pos.isEmpty then MoveEntry.instantFuture
  else if !checkMoveAxes ownAxes pos then MoveEntry.errBadAxis
  else if pos.any (fun p => p.2 = fallback) then MoveEntry.errValue
  else MoveEntry.submitted

/-- Embeds `RotationActuator.moveRel` (lines 2034-2050). -/
def rotationMoveRelCall (ownAxes : List String)
    (shift : List (String × ℚ)) : MoveEntry :=
  if shift.isEmpty then MoveEntry.instantFuture
  else if checkMoveAxes ownAxes shift then MoveEntry.submitted
  else MoveEntry.errBadAxis

/-- Embeds `RotationActuator.moveAbs` (lines 2060-2076). -/
def rotationMoveAbsCall (ownAxes : List String)
    (pos : List (String × ℚ)) : MoveEntry :=
  if pos.isEmpty then MoveEntry.instantFuture
  else if checkMoveAxes ownAxes pos then MoveEntry.submitted
  else MoveEntry.errBadAxis

/-- Embeds `CoupledStage.moveRel` (lines 530-537): an empty shift is
replaced by the zero shift and a real task is submitted to the executor.
Returns the entry outcome together with the shift actually handed to
`_doMoveRel`. -/
def coupledMoveRel (shift : List (String × ℚ)) :
    MoveEntry × List (String × ℚ) :=
  let shift2 := if shift.isEmpty then [("x", (0 : ℚ)), ("y", 0)] else shift
  (MoveEntry.submitted, shift2)

/-- Embeds `CoupledStage.moveAbs` (lines 539-546): an empty position is
replaced by the current position value and a real task is submitted. -/
def coupledMoveAbs (curPos : ℚ × ℚ) (pos : List (String × ℚ)) :
    MoveEntry × List (String × ℚ) :=
  let pos2 :=
    if pos.isEmpty then [("x", curPos.1), ("y", curPos.2)] else pos
  (MoveEntry.submitted, pos2)

/-! # Theorems -/

theorem qmod_eq_fract {K : Type} [LinearOrderedField K] [FloorRing K]
    (x c : K) (hc : c ≠ 0) : qmod x c = c * Int.fract (x / c) := by
  have h : c * (x / c) = x := by
    rw [mul_comm]
    exact div_mul_cancel₀ x hc
  rw [qmod, Int.fract, mul_sub, h]

theorem qmod_nonneg {K : Type} [LinearOrderedField K] [FloorRing K]
    (x c : K) (hc : 0 < c) : 0 ≤ qmod x c := by
  rw [qmod_eq_fract x c hc.ne.symm]
  exact mul_nonneg hc.le (Int.fract_nonneg _)

theorem qmod_lt {K : Type} [LinearOrderedField K] [FloorRing K]
    (x c : K) (hc : 0 < c) : qmod x c < c := by
  rw [qmod_eq_fract x c hc.ne.symm]
  calc c * Int.fract (x / c) < c * 1 :=
        (mul_lt_mul_left hc).2 (Int.fract_lt_one _)
    _ = c := mul_one c

theorem qmod_add_qmod_neg {K : Type} [LinearOrderedField K] [FloorRing K]
    (x c : K) (hc : 0 < c) (hx : qmod x c ≠ 0) :
    qmod x c + qmod (-x) c = c := by
  have hcne : c ≠ 0 := hc.ne.symm
  rw [qmod_eq_fract x c hcne, qmod_eq_fract (-x) c hcne, neg_div]
  have hf : Int.fract (x / c) ≠ 0 := by
    intro h
    apply hx
    rw [qmod_eq_fract x c hcne, h, mul_zero]
  rw [Int.fract_neg hf]
  ring

theorem qmod_neg_eq_zero {K : Type} [LinearOrderedField K] [FloorRing K]
    (x c : K) (hc : 0 < c) (hx : qmod x c = 0) : qmod (-x) c = 0 := by
  have hcne : c ≠ 0 := hc.ne.symm
  rw [qmod_eq_fract (-x) c hcne, neg_div]
  rw [qmod_eq_fract x c hcne] at hx
  rcases mul_eq_zero.1 hx with h | h
  · exact absurd h hcne
  · rw [Int.fract_neg_eq_zero.2 h, mul_zero]

/-- C1: for an `AntiBacklashActuator` relative move on an axis with
configured backlash `b`, starting unshifted: a shift with the same sign as
the backlash (or zero) is passed through unchanged with no compensation
move afterwards; a shift of the opposite sign is extended by the backlash
amount, the shifted flag is set before the main move, and afterwards a
compensating relative move of exactly `b` is issued and the flag cleared.
In particular with backlash `1/100`, `moveRel (-1)` issues `-101/100`
followed by a compensation of `+1/100`. -/
theorem antiBacklash_moveRel_protocol :
    (∀ b v : ℚ, 0 ≤ v * b →
      doMoveRelAxis (some b) v false = (v, none, false)) ∧
    (∀ b v : ℚ, v * b < 0 →
      doMoveRelAxis (some b) v false = (v - b, some b, false) ∧
      (subShiftAxis (some b) v false).2 = true) ∧
    doMoveRelAxis (some (1 / 100)) (-1) false =
      (-101 / 100, some (1 / 100), false) := by
  refine ⟨?_, ?_,
    by norm_num [doMoveRelAxis, subShiftAxis, antiBacklashMoveAxis]⟩
  · intro b v h
    simp [doMoveRelAxis, subShiftAxis, antiBacklashMoveAxis, h]
  · intro b v h
    have h2 : ¬ (0 ≤ v * b) := not_le.2 h
    constructor
    · simp [doMoveRelAxis, subShiftAxis, antiBacklashMoveAxis, h2]
    · simp [subShiftAxis, h2]

/-- Witness for `antiBacklash_moveRel_protocol`, instantiated at backlash
`1/100` with a same-direction shift `2` and an opposite-direction shift
`-1`. -/
theorem antiBacklash_moveRel_protocol_witness :
    ((0 : ℚ) ≤ 2 * (1 / 100) ∧
      doMoveRelAxis (some (1 / 100)) 2 false = (2, none, false)) ∧
    ((-1 : ℚ) * (1 / 100) < 0 ∧
      (doMoveRelAxis (some (1 / 100)) (-1) false =
        (-1 - 1 / 100, some (1 / 100), false) ∧
       (subShiftAxis (some (1 / 100)) (-1) false).2 = true)) :=
  ⟨⟨by norm_num, antiBacklash_moveRel_protocol.1 (1 / 100) 2 (by norm_num)⟩,
   ⟨by norm_num,
    antiBacklash_moveRel_protocol.2.1 (1 / 100) (-1) (by norm_num)⟩⟩

/-- C4: every `CoupledStage` task body records the slave re-synchronization
call (converted absolute move to the master's actual final position) on
both the success and the failure path of the master move, and when the
master move raised while the synchronization succeeded, the master's
exception still propagates through the future. -/
theorem coupledStage_resync_always (pos shift : ℚ × ℚ)
    (m : MasterOutcome) (slave : Except String Unit) :
    HwCall.slaveConvMoveAbs m.finalPos ∈ (coupledDoMoveAbs pos m slave).2 ∧
    HwCall.slaveConvMoveAbs m.finalPos ∈ (coupledDoMoveRel shift m slave).2 ∧
    (∀ e : String, m.result = Except.error e → slave = Except.ok () →
      (coupledDoMoveAbs pos m slave).1 = Except.error e ∧
      (coupledDoMoveRel shift m slave).1 = Except.error e) := by
  refine ⟨by simp [coupledDoMoveAbs], by simp [coupledDoMoveRel], ?_⟩
  intro e he hs
  constructor <;>
    simp [coupledDoMoveAbs, coupledDoMoveRel, tryFinallyExc, he, hs]

/-- Witness for `coupledStage_resync_always`: a master move that fails
with an error while reporting final position `(1, 2)`. -/
theorem coupledStage_resync_always_witness :
    (MasterOutcome.mk (Except.error "boom") (1, 2)).result =
        Except.error "boom" ∧
    (Except.ok () : Except String Unit) = Except.ok () ∧
    ((coupledDoMoveAbs (0, 0) (MasterOutcome.mk (Except.error "boom") (1, 2))
        (Except.ok ())).1 = Except.error "boom" ∧
     (coupledDoMoveRel (1, 0) (MasterOutcome.mk (Except.error "boom") (1, 2))
        (Except.ok ())).1 = Except.error "boom") :=
  ⟨rfl, rfl,
   (coupledStage_resync_always (0, 0) (1, 0)
      (MasterOutcome.mk (Except.error "boom") (1, 2))
      (Except.ok ())).2.2 "boom" rfl rfl⟩

/-- C7 (code evaluation at the failing input): when `stop` is called with
an axes set naming the exposed axis, both `FixedPositionsActuator.stop`
and `RotationActuator.stop` forward an empty axes set to the dependency
(the bound dependency axis name is never added, because `axes` is
reassigned to a fresh empty set before the membership test), and
`FixedPositionsActuator.stop` never cancels the executor queue. -/
theorem stop_translation_bug_eval :
    fixedPositionsStopDepAxes "z" "rz" (some ["z"]) = some [] ∧
    rotationStopDepAxes "z" "rz" (some ["z"]) = some [] ∧
    fixedPositionsStopCancelsQueue = false ∧
    rotationStopCancelsQueue = true := by
  decide

/-- C8 (amended): the `AntiBacklashActuator` construction-time range check
rejects an axis precisely when the backlash magnitude is strictly greater
than the span of the axis range; a magnitude equal to the span is
accepted (leaving a zero-width restricted range). -/
theorem antiBacklash_range_check_strict (b lo hi : ℚ) :
    (∃ e, antiBacklashAxisRange b lo hi = Except.error e) ↔
      hi - lo < |b| := by
  unfold antiBacklashAxisRange
  by_cases h : hi - lo < |b|
  · simp [h]
  · by_cases hb : 0 < b <;> simp [h, hb]

/-- C8 counterexample: with range `(0, 1)` and backlash `1` the magnitude
equals the span, yet construction does not raise (the check is strict),
refuting the claim that magnitude greater than or equal to the span is
rejected. -/
theorem antiBacklash_range_check_counterexample :
    (1 : ℚ) - 0 ≤ |(1 : ℚ)| ∧
    antiBacklashAxisRange 1 0 1 = Except.ok (1, 1) := by
  constructor
  · norm_num
  · unfold antiBacklashAxisRange
    norm_num

/-- C9: a non-empty relative move naming only valid axes raises
`NotImplementedError` synchronously on both discrete-only actuators,
before any task is queued and without invoking the dependency. -/
theorem discrete_moveRel_notImplemented (ownAxes : List String)
    (shift : List (String × ℚ)) (hne : shift ≠ [])
    (hval : checkMoveAxes ownAxes shift = true) :
    fixedPositionsMoveRel ownAxes shift = MoveEntry.errNotImplemented ∧
    combinedFixedPositionsMoveRel shift = MoveEntry.errNotImplemented := by
  have hempty : shift.isEmpty = false := by
    simp [List.isEmpty_iff, hne]
  constructor <;>
    simp [fixedPositionsMoveRel, combinedFixedPositionsMoveRel, hempty, hval]

/-- Witness for `discrete_moveRel_notImplemented` at axis `z` and shift
`[("z", 1)]`. -/
theorem discrete_moveRel_notImplemented_witness :
    ([(("z" : String), (1 : ℚ))] ≠ []) ∧
    checkMoveAxes ["z"] [(("z" : String), (1 : ℚ))] = true ∧
    (fixedPositionsMoveRel ["z"] [("z", (1 : ℚ))] =
        MoveEntry.errNotImplemented ∧
     combinedFixedPositionsMoveRel [("z", (1 : ℚ))] =
        MoveEntry.errNotImplemented) :=
  ⟨by decide, by decide,
   discrete_moveRel_notImplemented ["z"] [("z", 1)] (by decide) (by decide)⟩

/-- C10: an empty mapping passed to `moveRel` or `moveAbs` yields an
already-resolved `InstantaneousFuture` (nothing queued, no dependency
call) on `MultiplexActuator`, `AntiBacklashActuator`, `LinearActuator`,
`FixedPositionsActuator`, `CombinedSensorActuator`,
`CombinedFixedPositionActuator` and `RotationActuator` — including
`moveRel` on the discrete-only actuators — while `CoupledStage`
substitutes a zero shift (`moveRel`) or the current position (`moveAbs`)
and submits a real task to its executor. -/
theorem empty_move_instantaneous :
    (∀ (ownAxes : List String) (fb : String),
      multiplexMoveRel ownAxes [] = MoveEntry.instantFuture ∧
      multiplexMoveAbs ownAxes [] = MoveEntry.instantFuture ∧
      antiBacklashMoveRelCall ownAxes [] = MoveEntry.instantFuture ∧
      antiBacklashMoveAbsCall ownAxes [] = MoveEntry.instantFuture ∧
      linearMoveRelCall ownAxes [] = MoveEntry.instantFuture ∧
      linearMoveAbsCall ownAxes [] = MoveEntry.instantFuture ∧
      fixedPositionsMoveRel ownAxes [] = MoveEntry.instantFuture ∧
      fixedPositionsMoveAbs ownAxes [] = MoveEntry.instantFuture ∧
      combinedSensorMoveRel ownAxes [] = MoveEntry.instantFuture ∧
      combinedSensorMoveAbs ownAxes [] = MoveEntry.instantFuture ∧
      combinedFixedPositionsMoveRel [] = MoveEntry.instantFuture ∧
      combinedFixedPositionsMoveAbs ownAxes fb [] =
        MoveEntry.instantFuture ∧
      rotationMoveRelCall ownAxes [] = MoveEntry.instantFuture ∧
      rotationMoveAbsCall ownAxes [] = MoveEntry.instantFuture) ∧
    coupledMoveRel [] = (MoveEntry.submitted, [("x", 0), ("y", 0)]) ∧
    (∀ cur : ℚ × ℚ,
      coupledMoveAbs cur [] =
        (MoveEntry.submitted, [("x", cur.1), ("y", cur.2)])) := by
  refine ⟨?_, rfl, fun cur => rfl⟩
  intro ownAxes fb
  refine ⟨rfl, rfl, rfl, rfl, rfl, rfl, rfl, rfl, rfl, rfl, rfl, rfl, rfl,
    rfl⟩

theorem csLoop_moves_le (p_cor prev_pos exp_spos : ℚ) (sensor : ℕ → ℚ) :
    ∀ (fuel k : ℕ) (tot : ℚ),
      (csLoop p_cor prev_pos exp_spos sensor fuel k tot).2.1 ≤ k + fuel := by
  intro fuel
  induction fuel with
  | zero =>
    intro k tot
    by_cases h : sensor k = exp_spos <;> simp [csLoop, h]
  | succ n ih =>
    intro k tot
    by_cases h : sensor k = exp_spos
    · simp [csLoop, h]
    · by_cases h2 : p_cor = prev_pos
      · simp [csLoop, h, h2]
      · have hstep : csLoop p_cor prev_pos exp_spos sensor (n + 1) k tot =
            csLoop p_cor prev_pos exp_spos sensor n (k + 1)
              (tot + (p_cor - prev_pos) * (1 / 10)) := by
          simp [csLoop, h, h2]
        rw [hstep]
        have := ih (k + 1) (tot + (p_cor - prev_pos) * (1 / 10))
        omega

theorem csLoop_all_miss (p_cor prev_pos exp_spos : ℚ) (sensor : ℕ → ℚ)
    (hne : p_cor ≠ prev_pos) :
    ∀ (fuel k : ℕ) (tot : ℚ),
      (∀ j, k ≤ j → j ≤ k + fuel → sensor j ≠ exp_spos) →
      (csLoop p_cor prev_pos exp_spos sensor fuel k tot).1 =
        CsOutcome.ioError ∧
      (csLoop p_cor prev_pos exp_spos sensor fuel k tot).2.1 = k + fuel := by
  intro fuel
  induction fuel with
  | zero =>
    intro k tot hmiss
    have h := hmiss k le_rfl (by omega)
    simp [csLoop, h]
  | succ n ih =>
    intro k tot hmiss
    have h := hmiss k le_rfl (by omega)
    have hstep : csLoop p_cor prev_pos exp_spos sensor (n + 1) k tot =
        csLoop p_cor prev_pos exp_spos sensor n (k + 1)
          (tot + (p_cor - prev_pos) * (1 / 10)) := by
      simp [csLoop, h, hne]
    have hrec := ih (k + 1) (tot + (p_cor - prev_pos) * (1 / 10))
      (fun j hj1 hj2 => hmiss j (by omega) (by omega))
    rw [hstep]
    exact ⟨hrec.1, by rw [hrec.2]; omega⟩

/-- C5: the `CombinedSensorActuator` correction loop issues at most 10
corrective relative moves; when every sensor reading disagrees with the
expected mapped value (and a correction direction exists) the move fails
with `IOError`; and whenever the outcome is not success the persistent
per-instance correction offset `_pos_shift` — which is what derives the
corrected target `p + _pos_shift` of every move — is left unchanged. -/
theorem combinedSensor_retry_bound (p ps prev exp : ℚ) (sensor : ℕ → ℚ) :
    (csDoMoveAbs p ps prev exp sensor).2.1 ≤ 10 ∧
    ((csDoMoveAbs p ps prev exp sensor).1 ≠ CsOutcome.success →
      (csDoMoveAbs p ps prev exp sensor).2.2 = ps) ∧
    ((∀ j, j ≤ 9 → sensor j ≠ exp) → p + ps ≠ prev →
      (csDoMoveAbs p ps prev exp sensor).1 = CsOutcome.ioError ∧
      (csDoMoveAbs p ps prev exp sensor).2.2 = ps) := by
  have hb := csLoop_moves_le (p + ps) prev exp sensor 9 0 0
  rcases hloop : csLoop (p + ps) prev exp sensor 9 0 0 with ⟨o, k, tot⟩
  rw [hloop] at hb
  simp only at hb
  have hd : csDoMoveAbs p ps prev exp sensor =
      match o with
      | CsOutcome.success => (o, k, ps + tot)
      | CsOutcome.ioError => (o, k, ps)
      | CsOutcome.giveUp => (o, k, ps) := by
    simp only [csDoMoveAbs, hloop]
    cases o <;> rfl
  refine ⟨?_, ?_, ?_⟩
  · cases o <;> simp [hd] <;> omega
  · intro hns
    cases o
    · exact absurd (by simp [hd]) hns
    · simp [hd]
    · simp [hd]
  · intro hmiss hne
    have hall := csLoop_all_miss (p + ps) prev exp sensor hne 9 0 0
      (fun j hj1 hj2 => hmiss j (by omega))
    rw [hloop] at hall
    simp only at hall
    obtain ⟨h1, h2⟩ := hall
    subst h1
    simp [hd]

/-- Witness for `combinedSensor_retry_bound`: a sensor stuck at `0` while
the expected value is `5`, target `1`, previous position `0` and stored
shift `0`: the loop fails with `IOError` and keeps `_pos_shift = 0`. -/
theorem combinedSensor_retry_bound_witness :
    (∀ j, j ≤ 9 → (fun _ : ℕ => (0 : ℚ)) j ≠ 5) ∧ ((1 : ℚ) + 0 ≠ 0) ∧
    ((csDoMoveAbs 1 0 0 5 (fun _ => 0)).1 = CsOutcome.ioError ∧
     (csDoMoveAbs 1 0 0 5 (fun _ => 0)).2.2 = 0) :=
  ⟨fun j _ => by norm_num, by norm_num,
   (combinedSensor_retry_bound 1 0 0 5 (fun _ => 0)).2.2
     (fun j _ => by norm_num) (by norm_num)⟩

/-- C6: `CombinedFixedPositionActuator` reports the key of the first
position-table entry whose pair of dependency positions is within
per-axis tolerance — with the modulo-aware distance
`min ((cp - tp) % cycle, (tp - cp) % cycle)` on cyclic axes — and the
configured fallback label when no entry matches; in particular with table
`A ↦ (0,0), B ↦ (1,1)`, fallback `"unknown"` and current pair
`(1/2, 1/2)` outside both tolerances, it reports `"unknown"`. -/
theorem combinedFixedPosition_matching :
    (∀ c cp tp : ℚ, distAxis (some c) cp tp =
      min (qmod (cp - tp) c) (qmod (tp - cp) c)) ∧
    (∀ (ps : List (String × ℚ × ℚ)) (cur atol : ℚ × ℚ)
       (cyc : Option ℚ × Option ℚ) (fb : String),
      (∀ e ∈ ps, entryMatches cur atol cyc e.2 = false) →
      combinedUpdatePosition ps cur atol cyc fb = fb) ∧
    (∀ (pre post : List (String × ℚ × ℚ)) (k : String) (tp : ℚ × ℚ)
       (cur atol : ℚ × ℚ) (cyc : Option ℚ × Option ℚ) (fb : String),
      (∀ e ∈ pre, entryMatches cur atol cyc e.2 = false) →
      entryMatches cur atol cyc tp = true →
      combinedUpdatePosition (pre ++ (k, tp) :: post) cur atol cyc fb = k) ∧
    combinedUpdatePosition [("A", 0, 0), ("B", 1, 1)] (1 / 2, 1 / 2) (0, 0)
      (none, none) "unknown" = "unknown" := by
  have hfb : ∀ (ps : List (String × ℚ × ℚ)) (cur atol : ℚ × ℚ)
      (cyc : Option ℚ × Option ℚ) (fb : String),
      (∀ e ∈ ps, entryMatches cur atol cyc e.2 = false) →
      combinedUpdatePosition ps cur atol cyc fb = fb := by
    intro ps cur atol cyc fb hall
    unfold combinedUpdatePosition readPositionfromDependencies
    rw [List.find?_eq_none.2 (fun x hx => by simp [hall x hx])]
    rfl
  refine ⟨fun c cp tp => rfl, hfb, ?_, ?_⟩
  · intro pre post k tp cur atol cyc fb hall hmatch
    induction pre with
    | nil =>
      simp [combinedUpdatePosition, readPositionfromDependencies,
        List.find?_cons_of_pos, hmatch]
    | cons a rest ih =>
      have ha : entryMatches cur atol cyc a.2 = false :=
        hall a (List.mem_cons_self a rest)
      have hrest : ∀ e ∈ rest, entryMatches cur atol cyc e.2 = false :=
        fun e he => hall e (List.mem_cons_of_mem a he)
      have := ih hrest
      simpa [combinedUpdatePosition, readPositionfromDependencies,
        List.find?_cons_of_neg, ha] using this
  · refine hfb _ _ _ _ _ ?_
    intro e he
    simp only [List.mem_cons, List.not_mem_nil, or_false] at he
    rcases he with rfl | rfl <;> norm_num [entryMatches, distAxis]

/-- Witness for `combinedFixedPosition_matching`: the fallback branch on
an empty table and the first-match branch on a singleton table. -/
theorem combinedFixedPosition_matching_witness :
    (∀ e ∈ ([] : List (String × ℚ × ℚ)),
      entryMatches (0, 0) (0, 0) (none, none) e.2 = false) ∧
    combinedUpdatePosition [] (0, 0) (0, 0) (none, none) "unknown" =
      "unknown" ∧
    (entryMatches (0, 0) (0, 0) (none, none) ((0 : ℚ), (0 : ℚ)) = true ∧
     combinedUpdatePosition [("A", 0, 0)] (0, 0) (0, 0) (none, none)
       "unknown" = "A") :=
  ⟨fun e he => absurd he (List.not_mem_nil e),
   combinedFixedPosition_matching.2.1 [] (0, 0) (0, 0) (none, none)
     "unknown" (fun e he => absurd he (List.not_mem_nil e)),
   by norm_num [entryMatches, distAxis],
   combinedFixedPosition_matching.2.2.1 [] [] "A" (0, 0) (0, 0) (0, 0)
     (none, none) "unknown" (fun e he => absurd he (List.not_mem_nil e))
     (by norm_num [entryMatches, distAxis])⟩

theorem two_pi_bounds : (6.283 : ℝ) < 2 * Real.pi ∧ 2 * Real.pi < 6.3 := by
  have h1 := Real.pi_gt_d6
  have h2 := Real.pi_lt_d2
  constructor <;> linarith

theorem findShortestMove_pi_eval :
    findShortestMove (2 * Real.pi) 0.1 6.2 = 6.1 - 2 * Real.pi := by
  obtain ⟨hpi1, hpi2⟩ := two_pi_bounds
  have hc : (0 : ℝ) < 2 * Real.pi := by linarith
  have hfl1 : ⌊(6.1 : ℝ) / (2 * Real.pi)⌋ = 0 := by
    rw [Int.floor_eq_zero_iff, Set.mem_Ico]
    constructor
    · positivity
    · rw [div_lt_one hc]
      linarith
  have hfl2 : ⌊(-6.1 : ℝ) / (2 * Real.pi)⌋ = -1 := by
    rw [Int.floor_eq_iff]
    push_cast
    constructor
    · rw [le_div_iff₀ hc]
      linarith
    · have : (-6.1 : ℝ) / (2 * Real.pi) < 0 :=
        div_neg_of_neg_of_pos (by norm_num) hc
      linarith
  have hvec : (6.2 : ℝ) - 0.1 = 6.1 := by norm_num
  have hm1 : qmod ((6.2 : ℝ) - 0.1) (2 * Real.pi) = 6.1 := by
    rw [hvec, qmod, hfl1]
    norm_num
  have hm2 : qmod (-((6.2 : ℝ) - 0.1)) (2 * Real.pi) = 2 * Real.pi - 6.1 := by
    rw [hvec, qmod, hfl2]
    push_cast
    ring
  show (if qmod ((6.2 : ℝ) - 0.1) (2 * Real.pi) <
          qmod (-((6.2 : ℝ) - 0.1)) (2 * Real.pi)
        then qmod ((6.2 : ℝ) - 0.1) (2 * Real.pi)
        else -qmod (-((6.2 : ℝ) - 0.1)) (2 * Real.pi)) = 6.1 - 2 * Real.pi
  rw [hm1, hm2, if_neg (by linarith)]
  ring

/-- C2 (amended): `_findShortestMove` returns the signed move along the
shorter of the two modulo directions — either `(target - cur) % cycle` or
`-((cur - target) % cycle)`, whichever has the smaller magnitude — and
its absolute value never exceeds `cycle / 2`; in the concrete scenario
with cycle `2π`, current position `0.1` and target `6.2` the returned
move is negative, equal to `6.1 - 2π ≈ -0.183` (not the positive
alternative of about `6.1`). -/
theorem rotation_findShortestMove_spec :
    (∀ cycle cur target : ℝ, 0 < cycle →
      (findShortestMove cycle cur target = qmod (target - cur) cycle ∨
       findShortestMove cycle cur target = -qmod (cur - target) cycle) ∧
      |findShortestMove cycle cur target| =
        min (qmod (target - cur) cycle) (qmod (cur - target) cycle) ∧
      |findShortestMove cycle cur target| ≤ cycle / 2) ∧
    (findShortestMove (2 * Real.pi) 0.1 6.2 = 6.1 - 2 * Real.pi ∧
     findShortestMove (2 * Real.pi) 0.1 6.2 < 0 ∧
     |findShortestMove (2 * Real.pi) 0.1 6.2| < 6.1) := by
  constructor
  · intro c cur t hc
    have hunf : findShortestMove c cur t =
        if qmod (t - cur) c < qmod (-(t - cur)) c
        then qmod (t - cur) c else -qmod (-(t - cur)) c := rfl
    have hneg : cur - t = -(t - cur) := by ring
    have h1 : 0 ≤ qmod (t - cur) c := qmod_nonneg (t - cur) c hc
    have h2 : 0 ≤ qmod (-(t - cur)) c := qmod_nonneg (-(t - cur)) c hc
    rw [hneg, hunf]
    by_cases hlt : qmod (t - cur) c < qmod (-(t - cur)) c
    · rw [if_pos hlt]
      refine ⟨Or.inl rfl, ?_, ?_⟩
      · rw [abs_of_nonneg h1, min_eq_left hlt.le]
      · rw [abs_of_nonneg h1]
        by_cases hz : qmod (t - cur) c = 0
        · rw [hz]
          linarith
        · have hsum := qmod_add_qmod_neg (t - cur) c hc hz
          linarith
    · rw [if_neg hlt]
      push_neg at hlt
      refine ⟨Or.inr rfl, ?_, ?_⟩
      · rw [abs_neg, abs_of_nonneg h2, min_eq_right hlt]
      · rw [abs_neg, abs_of_nonneg h2]
        by_cases hz : qmod (t - cur) c = 0
        · rw [qmod_neg_eq_zero (t - cur) c hc hz]
          linarith
        · have hsum := qmod_add_qmod_neg (t - cur) c hc hz
          linarith
  · obtain ⟨hpi1, hpi2⟩ := two_pi_bounds
    have he := findShortestMove_pi_eval
    refine ⟨he, ?_, ?_⟩
    · rw [he]
      linarith
    · rw [he, abs_of_neg (show (6.1 : ℝ) - 2 * Real.pi < 0 by linarith)]
      linarith

/-- Witness for `rotation_findShortestMove_spec` at cycle `5`, current
`0`, target `1`. -/
theorem rotation_findShortestMove_spec_witness :
    (0 : ℝ) < 5 ∧
    ((findShortestMove (5 : ℝ) 0 1 = qmod (1 - 0 : ℝ) 5 ∨
      findShortestMove (5 : ℝ) 0 1 = -qmod (0 - 1 : ℝ) 5) ∧
     |findShortestMove (5 : ℝ) 0 1| =
       min (qmod (1 - 0 : ℝ) 5) (qmod (0 - 1 : ℝ) 5) ∧
     |findShortestMove (5 : ℝ) 0 1| ≤ 5 / 2) :=
  ⟨by norm_num, rotation_findShortestMove_spec.1 5 0 1 (by norm_num)⟩

/-- C2 counterexample: with cycle `2π`, current raw position `0.1` and
target `6.2`, the returned move `6.1 - 2π ≈ -0.183` lies more than `0.05`
below the claimed value of approximately `-0.083`, refuting the claim's
stated magnitude (while still being negative, as the code intends). -/
theorem rotation_findShortestMove_counterexample :
    findShortestMove (2 * Real.pi) 0.1 6.2 < -0.083 - 0.05 ∧
    findShortestMove (2 * Real.pi) 0.1 6.2 < 0 := by
  obtain ⟨hpi1, hpi2⟩ := two_pi_bounds
  rw [findShortestMove_pi_eval]
  constructor <;> linarith

theorem mfromdep_mtodep (cp : ConvertParams) (hx : cp.scaleX ≠ 0)
    (hy : cp.scaleY ≠ 0) (v : ℝ × ℝ) :
    mfromdepDot cp (mtodepDot cp v) = v := by
  obtain ⟨r, sx, sy, tx, ty⟩ := cp
  obtain ⟨a, b⟩ := v
  simp only at hx hy
  have hsc := Real.sin_sq_add_cos_sq r
  simp only [mfromdepDot, mtodepDot, Real.cos_neg, Real.sin_neg]
  rw [Prod.mk.injEq]
  constructor
  · field_simp
    linear_combination (a * sx * sy) * hsc
  · field_simp
    linear_combination (b * sx * sy) * hsc

theorem mtodep_mfromdep (cp : ConvertParams) (hx : cp.scaleX ≠ 0)
    (hy : cp.scaleY ≠ 0) (v : ℝ × ℝ) :
    mtodepDot cp (mfromdepDot cp v) = v := by
  obtain ⟨r, sx, sy, tx, ty⟩ := cp
  obtain ⟨a, b⟩ := v
  simp only at hx hy
  have hsc := Real.sin_sq_add_cos_sq r
  simp only [mfromdepDot, mtodepDot, Real.cos_neg, Real.sin_neg]
  rw [Prod.mk.injEq]
  constructor
  · field_simp
    linear_combination (a * sx * sy) * hsc
  · field_simp
    linear_combination (b * sx * sy) * hsc

/-- C3: for any rotation, non-zero scale pair and translation, the
`ConvertStage` forward and inverse conversions are mutually inverse, both
for `absolute = true` (translation applied) and `absolute = false`
(translation skipped).  Over the exact reals the round trips are exact
equalities (the implementation's float round-off is abstracted away). -/
theorem convertStage_roundTrip (cp : ConvertParams) (hx : cp.scaleX ≠ 0)
    (hy : cp.scaleY ≠ 0) (p : ℝ × ℝ) (absolute : Bool) :
    convertPosTodep cp (convertPosFromdep cp p absolute) absolute = p ∧
    convertPosFromdep cp (convertPosTodep cp p absolute) absolute = p := by
  cases absolute
  · constructor
    · show mtodepDot cp (mfromdepDot cp p) = p
      exact mtodep_mfromdep cp hx hy p
    · show mfromdepDot cp (mtodepDot cp p) = p
      exact mfromdep_mtodep cp hx hy p
  · constructor
    · show mtodepDot cp ((mfromdepDot cp p).1 - cp.transX + cp.transX,
          (mfromdepDot cp p).2 - cp.transY + cp.transY) = p
      have h : ((mfromdepDot cp p).1 - cp.transX + cp.transX,
          (mfromdepDot cp p).2 - cp.transY + cp.transY) =
          mfromdepDot cp p := by
        rw [Prod.ext_iff]
        constructor <;> simp
      rw [h]
      exact mtodep_mfromdep cp hx hy p
    · show ((mfromdepDot cp (mtodepDot cp
            (p.1 + cp.transX, p.2 + cp.transY))).1 - cp.transX,
          (mfromdepDot cp (mtodepDot cp
            (p.1 + cp.transX, p.2 + cp.transY))).2 - cp.transY) = p
      rw [mfromdep_mtodep cp hx hy (p.1 + cp.transX, p.2 + cp.transY)]
      rw [Prod.ext_iff]
      constructor <;> simp

/-- Witness for `convertStage_roundTrip` at the identity transform and
the point `(1, 2)`. -/
theorem convertStage_roundTrip_witness :
    (ConvertParams.mk 0 1 1 0 0).scaleX ≠ 0 ∧
    (ConvertParams.mk 0 1 1 0 0).scaleY ≠ 0 ∧
    (convertPosTodep (ConvertParams.mk 0 1 1 0 0)
       (convertPosFromdep (ConvertParams.mk 0 1 1 0 0) (1, 2) true) true =
       (1, 2) ∧
     convertPosFromdep (ConvertParams.mk 0 1 1 0 0)
       (convertPosTodep (ConvertParams.mk 0 1 1 0 0) (1, 2) true) true =
       (1, 2)) :=
  ⟨one_ne_zero, one_ne_zero,
   convertStage_roundTrip (ConvertParams.mk 0 1 1 0 0) one_ne_zero
     one_ne_zero (1, 2) true⟩
